import Mathlib

/-!
Shallow embedding of the Kanidm Terraform provider's API client core
(`internal/client/client.go`, `person.go`, `group.go`, `oauth2.go`).
Go slices that may be `nil` are modelled as `Option (List _)` with `none`
standing for the Go `nil` slice (JSON `null`) and `some xs` for a non-nil
slice. Go's `map[string]any` attribute maps are modelled as association
lists with first-match lookup (Go map keys are unique, so this is faithful).
-/

namespace KanidmClient

/-- Element of a decoded JSON array (`[]any` in Go). The client code only
ever type-tests such elements against `string`, so every non-string element
(number, bool, nested object/array, null) is modelled by one constructor. -/
inductive GoElem where
  | str (s : String)
  | nonStr
  deriving DecidableEq

/-- Runtime value stored under a key of a Go `map[string]any` attribute map,
covering exactly the cases the `Entry.GetString` / `Entry.GetStringSlice`
type switches distinguish: `string`, `[]any`, `[]string`, and anything else. -/
inductive GoVal where
  | str (s : String)
  | anyArr (xs : List GoElem)
  | strArr (xs : List String)
  | other
  deriving DecidableEq

/-- Association-list model of a Go `map[string]any` attribute map. -/
abbrev Attrs := List (String × GoVal)

/-- Lookup of a key in the attribute map, modelling `val, ok := e.Attrs[key]`. -/
def findAttr (key : String) : Attrs → Option GoVal
  | [] => none
  | (k, v) :: rest => if k = key then some v else findAttr key rest

/-- Embedding of `Entry` (client.go line 134): a Kanidm resource with attributes. -/
structure Entry where
  Attrs : Attrs
  deriving DecidableEq

/-- Embedding of `Entry.GetString` (client.go lines 139-157): scalar string
as is; first element of a `[]any` when it is a string; empty string otherwise. -/
def Entry.GetString (e : Entry) (key : String) : String :=
  match findAttr key e.Attrs with
  | none => ""
  | some (.str v) => v
  | some (.anyArr v) =>
    match v with
    | .str s :: _ => s
    | _ => ""
  | some _ => ""

/-- One step of the `for _, item := range v` loop body in `Entry.GetStringSlice`:
append the element when it is a string, skip it otherwise. -/
def appendIfString (acc : List String) (item : GoElem) : List String :=
  match item with
  | .str s => acc ++ [s]
  | .nonStr => acc

/-- Embedding of `Entry.GetStringSlice` (client.go lines 160-182). `none`
models the Go `nil` slice returned when the key is absent or the value has an
unhandled type; the `[]any` case builds a non-nil slice (`make([]string, 0, …)`)
by looping and appending string-typed elements. -/
def Entry.GetStringSlice (e : Entry) (key : String) : Option (List String) :=
  match findAttr key e.Attrs with
  | none => none
  | some (.anyArr v) => some (v.foldl appendIfString [])
  | some (.strArr v) => some v
  | some (.str v) => some [v]
  | some .other => none

/-- Typed outcome of `Client.checkResponse`: the sentinel errors
`ErrNotFound`, `ErrUnauthorized`, `ErrForbidden` (client.go lines 15-22) and
the two `fmt.Errorf` shapes, with and without a response body. -/
inductive HttpError where
  | notFound
  | unauthorized
  | forbidden
  | apiWithBody (status : Nat) (body : String)
  | api (status : Nat)
  deriving DecidableEq

/-- Embedding of `Client.checkResponse` (client.go lines 99-120): `none` is
success (a 2xx status); otherwise the status code selects a typed error, Go's
`switch` being an equality chain, and the default case carries the body text
exactly when the body is non-empty. -/
def checkResponse (status : Nat) (body : String) : Option HttpError :=
  if 200 ≤ status ∧ status < 300 then
    none
  else if status = 404 then
    some .notFound
  else if status = 401 then
    some .unauthorized
  else if status = 403 then
    some .forbidden
  else if 0 < body.length then
    some (.apiWithBody status body)
  else
    some (.api status)

/-- Embedding of `Group` (group.go lines 9-13). `Members` is a Go `[]string`
that may be `nil`, hence `Option`. -/
structure Group where
  ID : String
  Description : String
  Members : Option (List String)
  deriving DecidableEq

/-- Embedding of the decode half of `Client.GetGroup` (group.go lines 40-62).
The HTTP fetch and JSON decode are abstracted into the `resp` argument: an
already decoded `Entry` on success, the transport/decode error otherwise; a
failure is wrapped with the operation name as in `fmt.Errorf("get group: %w")`.
On success, members are normalized: `if members == nil { members = []string{} }`. -/
def GetGroup (resp : Except ε Entry) : Except (String × ε) Group :=
  match resp with
  | .error e => .error ("get group", e)
  | .ok entry =>
    let members :=
      match entry.GetStringSlice "member" with
      | none => some ([] : List String)
      | some l => some l
    .ok { ID := entry.GetString "name",
          Description := entry.GetString "description",
          Members := members }

/-- Embedding of `OAuth2Client` (oauth2.go lines 9-18). `RedirectURIs` is a
nilable `[]string` and `ScopeMaps` a nilable `map[string][]string`. -/
structure OAuth2Client where
  Name : String
  DisplayName : String
  Origin : String
  RedirectURIs : Option (List String)
  ScopeMaps : Option (List (String × List String))
  ClientID : String
  ClientSecret : String
  IsPublic : Bool
  deriving DecidableEq

/-- Embedding of the decode half of `Client.GetOAuth2Client` (oauth2.go lines
75-113), with the HTTP fetch abstracted into `resp`. Public-vs-confidential is
inferred from key presence of `oauth2_rs_basic_secret`; the origin is trimmed
of one trailing `'/'` when its last character is `'/'` (Go tests the last byte
and slices one byte off, which for the one-byte ASCII `'/'` is the same as the
last character). `ClientSecret` and `ScopeMaps` are not set by the Go struct
literal, so they take the zero values `""` and `nil`. -/
def GetOAuth2Client (resp : Except ε Entry) : Except (String × ε) OAuth2Client :=
  match resp with
  | .error e => .error ("get oauth2 client", e)
  | .ok entry =>
    let hasBasicSecret := (findAttr "oauth2_rs_basic_secret" entry.Attrs).isSome
    let isPublic := !hasBasicSecret
    let clientName0 := entry.GetString "name"
    let clientName := if clientName0 = "" then entry.GetString "oauth2_rs_name" else clientName0
    let origin0 := entry.GetString "oauth2_rs_origin"
    let origin :=
      if origin0.data.getLast? = some '/' then String.mk origin0.data.dropLast
      else origin0
    .ok { Name := clientName,
          DisplayName := entry.GetString "displayname",
          Origin := origin,
          RedirectURIs := entry.GetStringSlice "oauth2_rs_origin_landing",
          ScopeMaps := none,
          ClientID := clientName,
          ClientSecret := "",
          IsPublic := isPublic }

/-- Embedding of `Client.CreateOAuth2BasicClient` (oauth2.go lines 21-49).
The two HTTP exchanges are abstracted into arguments in sequence order: the
creation POST (`createResp`) and the follow-up `GetOAuth2BasicSecret` fetch
(`secretResp`). Each failure is wrapped with the operation name as in the Go
`fmt.Errorf` calls; on success the result carries the fetched secret and
`IsPublic: false`. -/
def CreateOAuth2BasicClient (name displayName origin : String)
    (createResp : Except ε Unit) (secretResp : Except ε String) :
    Except (String × ε) OAuth2Client :=
  match createResp with
  | .error e => .error ("create oauth2 basic client", e)
  | .ok _ =>
    match secretResp with
    | .error e => .error ("retrieve client secret", e)
    | .ok clientSecret =>
      .ok { Name := name,
            DisplayName := displayName,
            Origin := origin,
            RedirectURIs := none,
            ScopeMaps := none,
            ClientID := name,
            ClientSecret := clientSecret,
            IsPublic := false }

/-- Attribute map built by `Client.UpdatePerson` (person.go lines 55-75):
`displayname` only when the string is non-empty, `mail` only when the slice is
non-nil; each value is sent as the API's sequence encoding. -/
def UpdatePersonAttrs (displayName : String) (mail : Option (List String)) : Attrs :=
  (if displayName ≠ "" then [("displayname", GoVal.strArr [displayName])] else []) ++
  (match mail with
   | some m => [("mail", GoVal.strArr m)]
   | none => [])

/-- Attribute map built by `Client.UpdateGroup` (group.go lines 65-85):
`description` only when non-empty, `member` only when the slice is non-nil. -/
def UpdateGroupAttrs (description : String) (members : Option (List String)) : Attrs :=
  (if description ≠ "" then [("description", GoVal.strArr [description])] else []) ++
  (match members with
   | some m => [("member", GoVal.strArr m)]
   | none => [])

/-- Attribute map built by `Client.UpdateOAuth2Client` (oauth2.go lines
116-140): `displayname` and `oauth2_rs_origin` only when non-empty,
`oauth2_rs_origin_landing` only when the slice is non-nil. -/
def UpdateOAuth2ClientAttrs (displayName origin : String)
    (redirectURIs : Option (List String)) : Attrs :=
  (if displayName ≠ "" then [("displayname", GoVal.strArr [displayName])] else []) ++
  (if origin ≠ "" then [("oauth2_rs_origin", GoVal.strArr [origin])] else []) ++
  (match redirectURIs with
   | some u => [("oauth2_rs_origin_landing", GoVal.strArr u)]
   | none => [])

/-- Modelled from the spec: the client operation
`CreatePersonCredentialResetToken(id, ttl)` is missing from the sources (only
its caller `personResource.Create` in person_resource.go appears, passing an
optional `*int` TTL). Per the spec it mints a one-time credential reset token
with an optional TTL override and returns the token string verbatim; the
server exchange is abstracted into `serverResp`, and a failure is wrapped with
the operation name following the client's uniform convention. -/
def CreatePersonCredentialResetToken (id : String) (ttl : Option Int)
    (serverResp : Except ε String) : Except (String × ε) String :=
  match serverResp with
  | .error e => .error ("create person credential reset token", e)
  | .ok token => .ok token

/-- Sequence of the string-typed elements of a decoded `[]any` value, in their
original order: the normal form the spec ascribes to `GetStringSlice` on
heterogeneous sequences. -/
def stringElems (xs : List GoElem) : List String :=
  xs.filterMap fun item =>
    match item with
    | .str s => some s
    | .nonStr => none

theorem foldl_appendIfString (xs : List GoElem) (acc : List String) :
    xs.foldl appendIfString acc = acc ++ stringElems xs := by
  induction xs generalizing acc with
  | nil => simp [stringElems]
  | cons hd tl ih =>
    cases hd with
    | str s => simp [appendIfString, stringElems, List.filterMap_cons, ih]
    | nonStr => simp [appendIfString, stringElems, List.filterMap_cons, ih]

/-- C1: the claim states that for a key absent from the attribute map
`GetString` returns the empty string (which holds) and `GetStringSlice`
returns an explicit empty sequence, never a null/absent marker. Evaluating
the code at an entry with an empty attribute map and the key `"mail"` shows
`GetStringSlice` returns the Go `nil` slice (modelled `none`), which is the
null/absent marker and is distinct from the explicit empty slice `some []`. -/
theorem c1_missing_key_getStringSlice_is_nil :
    Entry.GetString ⟨[]⟩ "mail" = "" ∧
    Entry.GetStringSlice ⟨[]⟩ "mail" = none ∧
    (none : Option (List String)) ≠ some [] :=
  ⟨rfl, rfl, by simp⟩

/-- C2: for every entry and key whose stored value is a bare scalar string
`s`, `GetString` returns `s` unchanged and `GetStringSlice` returns the
one-element sequence `[s]`. -/
theorem c2_scalar_value_roundtrip (e : Entry) (k s : String)
    (h : findAttr k e.Attrs = some (.str s)) :
    e.GetString k = s ∧ e.GetStringSlice k = some [s] := by
  constructor <;> simp [Entry.GetString, Entry.GetStringSlice, h]

theorem c2_scalar_value_roundtrip_witness :
    findAttr "displayname" [("displayname", GoVal.str "Alice")] =
      some (.str "Alice") ∧
    (Entry.GetString ⟨[("displayname", GoVal.str "Alice")]⟩ "displayname" = "Alice" ∧
     Entry.GetStringSlice ⟨[("displayname", GoVal.str "Alice")]⟩ "displayname" =
       some ["Alice"]) :=
  ⟨by decide,
   c2_scalar_value_roundtrip ⟨[("displayname", GoVal.str "Alice")]⟩ "displayname"
     "Alice" (by decide)⟩

/-- C10: for every entry and key stored as a heterogeneous `[]any` sequence,
`GetStringSlice` returns exactly the string-typed elements in their original
order, dropping every non-string element; and `GetString` on such a key
returns the empty string whenever the first element is not a string, even if
later elements are strings. -/
theorem c10_heterogeneous_sequence (e : Entry) (k : String) (xs : List GoElem)
    (h : findAttr k e.Attrs = some (.anyArr xs)) :
    e.GetStringSlice k = some (stringElems xs) ∧
    (∀ tl, xs = GoElem.nonStr :: tl → e.GetString k = "") := by
  constructor
  · simp [Entry.GetStringSlice, h, foldl_appendIfString]
  · intro tl hxs
    subst hxs
    simp [Entry.GetString, h]

theorem c10_heterogeneous_sequence_witness :
    findAttr "mail" [("mail", GoVal.anyArr [.nonStr, .str "a", .str "b"])] =
      some (.anyArr [.nonStr, .str "a", .str "b"]) ∧
    Entry.GetStringSlice ⟨[("mail", GoVal.anyArr [.nonStr, .str "a", .str "b"])]⟩
      "mail" = some ["a", "b"] ∧
    Entry.GetString ⟨[("mail", GoVal.anyArr [.nonStr, .str "a", .str "b"])]⟩
      "mail" = "" :=
  ⟨by decide,
   (c10_heterogeneous_sequence
     ⟨[("mail", GoVal.anyArr [.nonStr, .str "a", .str "b"])]⟩ "mail"
     [.nonStr, .str "a", .str "b"] (by decide)).1,
   (c10_heterogeneous_sequence
     ⟨[("mail", GoVal.anyArr [.nonStr, .str "a", .str "b"])]⟩ "mail"
     [.nonStr, .str "a", .str "b"] (by decide)).2 [.str "a", .str "b"] rfl⟩

theorem length_pos_iff_ne_empty (s : String) : 0 < s.length ↔ s ≠ "" := by
  cases s with
  | mk l =>
    cases l with
    | nil => simp [String.length]
    | cons c cs => simp [String.length, String.ext_iff]

/-- C3: `checkResponse` returns success exactly when the status code is in
[200, 300); it returns the not-found error for 404, the unauthorized error
for 401, the forbidden error for 403, and for every other status a generic
failure that carries the response body text when the body is non-empty. -/
theorem c3_checkResponse_classification (status : Nat) (body : String) :
    (checkResponse status body = none ↔ 200 ≤ status ∧ status < 300) ∧
    (status = 404 → checkResponse status body = some .notFound) ∧
    (status = 401 → checkResponse status body = some .unauthorized) ∧
    (status = 403 → checkResponse status body = some .forbidden) ∧
    (¬(200 ≤ status ∧ status < 300) → status ≠ 404 → status ≠ 401 → status ≠ 403 →
      (body ≠ "" → checkResponse status body = some (.apiWithBody status body)) ∧
      (body = "" → checkResponse status body = some (.api status))) := by
  refine ⟨?_, ?_, ?_, ?_, ?_⟩
  · constructor
    · intro h
      by_contra hc
      simp only [checkResponse, if_neg hc] at h
      revert h
      split_ifs <;> simp
    · intro h2
      simp [checkResponse, h2]
  · intro h
    subst h
    rfl
  · intro h
    subst h
    rfl
  · intro h
    subst h
    rfl
  · intro h2 h404 h401 h403
    simp only [checkResponse, if_neg h2, if_neg h404, if_neg h401, if_neg h403]
    constructor
    · intro hb
      rw [if_pos ((length_pos_iff_ne_empty body).mpr hb)]
    · intro hb
      subst hb
      rfl

theorem c3_checkResponse_classification_witness :
    checkResponse 204 "x" = none ∧
    checkResponse 404 "irrelevant" = some .notFound ∧
    checkResponse 401 "" = some .unauthorized ∧
    checkResponse 403 "" = some .forbidden ∧
    checkResponse 500 "boom" = some (.apiWithBody 500 "boom") ∧
    checkResponse 500 "" = some (.api 500) :=
  ⟨(c3_checkResponse_classification 204 "x").1.mpr (by omega),
   (c3_checkResponse_classification 404 "irrelevant").2.1 rfl,
   (c3_checkResponse_classification 401 "").2.2.1 rfl,
   (c3_checkResponse_classification 403 "").2.2.2.1 rfl,
   ((c3_checkResponse_classification 500 "boom").2.2.2.2
     (by omega) (by omega) (by omega) (by omega)).1 (by decide),
   ((c3_checkResponse_classification 500 "").2.2.2.2
     (by omega) (by omega) (by omega) (by omega)).2 rfl⟩

/-- C4: a decoded OAuth2 entry is classified public exactly when the key
`oauth2_rs_basic_secret` is absent from the attribute map; whenever that key
is present, with any value whatsoever, the client is confidential. -/
theorem c4_public_iff_secret_key_absent (entry : Entry) (client : OAuth2Client)
    (h : GetOAuth2Client (Except.ok (ε := Unit) entry) = .ok client) :
    client.IsPublic = true ↔ findAttr "oauth2_rs_basic_secret" entry.Attrs = none := by
  simp only [GetOAuth2Client, Except.ok.injEq] at h
  subst h
  cases ho : findAttr "oauth2_rs_basic_secret" entry.Attrs <;> simp [ho]

theorem c4_public_iff_secret_key_absent_witness :
    GetOAuth2Client (Except.ok (ε := Unit) ⟨[("oauth2_rs_basic_secret", GoVal.str "")]⟩) =
      Except.ok { Name := "", DisplayName := "", Origin := "", RedirectURIs := none,
                  ScopeMaps := none, ClientID := "", ClientSecret := "",
                  IsPublic := false } ∧
    (({ Name := "", DisplayName := "", Origin := "", RedirectURIs := none,
        ScopeMaps := none, ClientID := "", ClientSecret := "",
        IsPublic := false } : OAuth2Client).IsPublic = true ↔
      findAttr "oauth2_rs_basic_secret" [("oauth2_rs_basic_secret", GoVal.str "")] = none) :=
  ⟨rfl,
   c4_public_iff_secret_key_absent ⟨[("oauth2_rs_basic_secret", GoVal.str "")]⟩ _
     rfl⟩

/-- C5: the decoded origin equals the server-stored origin with exactly one
trailing `'/'` removed when the stored value ends in `'/'` (every string
ending in `'/'` has the form `t.push '/'`, and the decode yields `t`), and
equals the stored value unchanged when it does not end in `'/'`. -/
theorem c5_origin_trailing_slash (entry : Entry) (client : OAuth2Client)
    (h : GetOAuth2Client (Except.ok (ε := Unit) entry) = .ok client) :
    (∀ t : String, entry.GetString "oauth2_rs_origin" = t.push '/' →
      client.Origin = t) ∧
    ((entry.GetString "oauth2_rs_origin").data.getLast? ≠ some '/' →
      client.Origin = entry.GetString "oauth2_rs_origin") := by
  simp only [GetOAuth2Client, Except.ok.injEq] at h
  subst h
  constructor
  · intro t ht
    show (if _ then _ else _) = t
    rw [ht]
    have hdata : (t.push '/').data = t.data ++ ['/'] := rfl
    rw [hdata, List.getLast?_concat, if_pos rfl, List.dropLast_concat]
  · intro hne
    show (if _ then _ else _) = _
    rw [if_neg hne]

theorem c5_origin_trailing_slash_witness :
    GetOAuth2Client (Except.ok (ε := Unit)
        ⟨[("oauth2_rs_origin", GoVal.str "https://x.example.com/")]⟩) =
      Except.ok { Name := "", DisplayName := "", Origin := "https://x.example.com",
                  RedirectURIs := none, ScopeMaps := none, ClientID := "",
                  ClientSecret := "", IsPublic := true } ∧
    Entry.GetString ⟨[("oauth2_rs_origin", GoVal.str "https://x.example.com/")]⟩
        "oauth2_rs_origin" = ("https://x.example.com").push '/' ∧
    ({ Name := "", DisplayName := "", Origin := "https://x.example.com",
       RedirectURIs := none, ScopeMaps := none, ClientID := "",
       ClientSecret := "", IsPublic := true } : OAuth2Client).Origin =
      "https://x.example.com" :=
  ⟨rfl, rfl,
   (c5_origin_trailing_slash
     ⟨[("oauth2_rs_origin", GoVal.str "https://x.example.com/")]⟩ _ rfl).1
     "https://x.example.com" rfl⟩

/-- C6: the members of a decoded group are never the Go `nil` slice: they
equal whatever `GetStringSlice "member"` produced when that is non-nil, and
are normalized to the explicit empty sequence when the `member` attribute is
absent or when the stored sequence contains no string elements. -/
theorem c6_group_members_never_null (entry : Entry) (g : Group)
    (h : GetGroup (Except.ok (ε := Unit) entry) = .ok g) :
    g.Members ≠ none ∧
    (findAttr "member" entry.Attrs = none → g.Members = some []) ∧
    (entry.GetStringSlice "member" = some [] → g.Members = some []) := by
  simp only [GetGroup, Except.ok.injEq] at h
  subst h
  refine ⟨?_, ?_, ?_⟩
  · cases hm : entry.GetStringSlice "member" <;> simp [hm]
  · intro habs
    have hm : entry.GetStringSlice "member" = none := by
      simp [Entry.GetStringSlice, habs]
    simp [hm]
  · intro hm
    simp [hm]

theorem c6_group_members_never_null_witness :
    GetGroup (Except.ok (ε := Unit) ⟨[]⟩) =
      Except.ok { ID := "", Description := "", Members := some [] } ∧
    (({ ID := "", Description := "", Members := some [] } : Group).Members ≠ none ∧
     findAttr "member" ([] : Attrs) = none ∧
     ({ ID := "", Description := "", Members := some [] } : Group).Members = some []) :=
  ⟨rfl,
   (c6_group_members_never_null ⟨[]⟩ _ rfl).1,
   rfl,
   (c6_group_members_never_null ⟨[]⟩ _ rfl).2.1 rfl⟩

/-- C7: in the `attrs` maps built by `UpdatePerson`, `UpdateGroup` and
`UpdateOAuth2Client`, an optional field given as the empty string
(displayName, description, origin) or as nil (mail, members, redirectURIs)
is absent from the payload, the non-empty/non-nil fields appear with their
sequence-encoded values, and when every field is empty/nil the map is empty. -/
theorem c7_update_omits_unset_fields (displayName description origin : String)
    (mail members redirectURIs : Option (List String)) :
    (findAttr "displayname" (UpdatePersonAttrs displayName mail) =
      (if displayName = "" then none else some (.strArr [displayName]))) ∧
    (findAttr "mail" (UpdatePersonAttrs displayName mail) =
      Option.map GoVal.strArr mail) ∧
    UpdatePersonAttrs "" none = [] ∧
    (findAttr "description" (UpdateGroupAttrs description members) =
      (if description = "" then none else some (.strArr [description]))) ∧
    (findAttr "member" (UpdateGroupAttrs description members) =
      Option.map GoVal.strArr members) ∧
    UpdateGroupAttrs "" none = [] ∧
    (findAttr "displayname" (UpdateOAuth2ClientAttrs displayName origin redirectURIs) =
      (if displayName = "" then none else some (.strArr [displayName]))) ∧
    (findAttr "oauth2_rs_origin" (UpdateOAuth2ClientAttrs displayName origin redirectURIs) =
      (if origin = "" then none else some (.strArr [origin]))) ∧
    (findAttr "oauth2_rs_origin_landing"
        (UpdateOAuth2ClientAttrs displayName origin redirectURIs) =
      Option.map GoVal.strArr redirectURIs) ∧
    UpdateOAuth2ClientAttrs "" "" none = [] := by
  have hmd : ¬ ("mail" : String) = "displayname" := by decide
  have hdm : ¬ ("displayname" : String) = "mail" := by decide
  have hme : ¬ ("member" : String) = "description" := by decide
  have hdme : ¬ ("description" : String) = "member" := by decide
  have hod : ¬ ("oauth2_rs_origin" : String) = "displayname" := by decide
  have hld : ¬ ("oauth2_rs_origin_landing" : String) = "displayname" := by decide
  have hdo : ¬ ("displayname" : String) = "oauth2_rs_origin" := by decide
  have hlo : ¬ ("oauth2_rs_origin_landing" : String) = "oauth2_rs_origin" := by decide
  have hdl : ¬ ("displayname" : String) = "oauth2_rs_origin_landing" := by decide
  have hol : ¬ ("oauth2_rs_origin" : String) = "oauth2_rs_origin_landing" := by decide
  refine ⟨?_, ?_, rfl, ?_, ?_, rfl, ?_, ?_, ?_, rfl⟩
  · cases mail <;> by_cases hd : displayName = "" <;>
      simp [UpdatePersonAttrs, findAttr, hd, hmd]
  · cases mail <;> by_cases hd : displayName = "" <;>
      simp [UpdatePersonAttrs, findAttr, hd, hdm]
  · cases members <;> by_cases hd : description = "" <;>
      simp [UpdateGroupAttrs, findAttr, hd, hme]
  · cases members <;> by_cases hd : description = "" <;>
      simp [UpdateGroupAttrs, findAttr, hd, hdme]
  · cases redirectURIs <;> by_cases hd : displayName = "" <;>
      by_cases ho : origin = "" <;>
      simp [UpdateOAuth2ClientAttrs, findAttr, hd, ho, hod, hld]
  · cases redirectURIs <;> by_cases hd : displayName = "" <;>
      by_cases ho : origin = "" <;>
      simp [UpdateOAuth2ClientAttrs, findAttr, hd, ho, hdo, hlo]
  · cases redirectURIs <;> by_cases hd : displayName = "" <;>
      by_cases ho : origin = "" <;>
      simp [UpdateOAuth2ClientAttrs, findAttr, hd, ho, hdl, hol]

/-- C8: on a successful creation request, `CreateOAuth2BasicClient`'s result
is determined by the follow-up secret fetch: a failed fetch makes the whole
call fail (wrapped as a retrieve-client-secret error), and a successful fetch
of secret `s` yields a client with `IsPublic = false` and `ClientSecret = s`,
which is non-empty whenever the server-produced secret is. -/
theorem c8_create_basic_secret_flow (name displayName origin secret : String) :
    (∀ e : String,
      CreateOAuth2BasicClient name displayName origin (Except.ok (ε := String) ())
          (Except.error e) =
        Except.error ("retrieve client secret", e)) ∧
    (∀ client : OAuth2Client,
      CreateOAuth2BasicClient name displayName origin (Except.ok (ε := String) ())
          (Except.ok secret) = Except.ok client →
      client.IsPublic = false ∧ client.ClientSecret = secret ∧
        (secret ≠ "" → client.ClientSecret ≠ "")) := by
  constructor
  · intro e
    rfl
  · intro client h
    simp only [CreateOAuth2BasicClient, Except.ok.injEq] at h
    subst h
    exact ⟨rfl, rfl, fun hs => hs⟩

theorem c8_create_basic_secret_flow_witness :
    CreateOAuth2BasicClient "grafana" "Grafana" "https://g.example.com"
        (Except.ok (ε := String) ()) (Except.error "boom") =
      Except.error ("retrieve client secret", "boom") ∧
    CreateOAuth2BasicClient "grafana" "Grafana" "https://g.example.com"
        (Except.ok (ε := String) ()) (Except.ok "s3cret") =
      Except.ok { Name := "grafana", DisplayName := "Grafana",
                  Origin := "https://g.example.com", RedirectURIs := none,
                  ScopeMaps := none, ClientID := "grafana",
                  ClientSecret := "s3cret", IsPublic := false } ∧
    ({ Name := "grafana", DisplayName := "Grafana",
       Origin := "https://g.example.com", RedirectURIs := none,
       ScopeMaps := none, ClientID := "grafana",
       ClientSecret := "s3cret", IsPublic := false } : OAuth2Client).IsPublic = false ∧
    ({ Name := "grafana", DisplayName := "Grafana",
       Origin := "https://g.example.com", RedirectURIs := none,
       ScopeMaps := none, ClientID := "grafana",
       ClientSecret := "s3cret", IsPublic := false } : OAuth2Client).ClientSecret ≠ "" :=
  ⟨(c8_create_basic_secret_flow "grafana" "Grafana" "https://g.example.com"
      "s3cret").1 "boom",
   rfl,
   ((c8_create_basic_secret_flow "grafana" "Grafana" "https://g.example.com"
      "s3cret").2 _ rfl).1,
   ((c8_create_basic_secret_flow "grafana" "Grafana" "https://g.example.com"
      "s3cret").2 _ rfl).2.2 (by decide)⟩

/-- C9: the credential reset token operation (spec-modelled, the client
method being absent from the sources) takes an id and an optional TTL
override and returns the server-produced token string verbatim. -/
theorem c9_reset_token_verbatim (id : String) (ttl : Option Int) (token : String) :
    CreatePersonCredentialResetToken id ttl (Except.ok (ε := String) token) =
      Except.ok token :=
  rfl

end KanidmClient
